import Mathlib

/-!
Shallow embedding of `DefaultViewService`
(src/packages/shared/src/server/services/DefaultViewService/DefaultViewService.ts)
over the `default_views` table
(src/packages/shared/prisma/migrations/20260209164349_add_default_views/migration.sql).

The table is modelled as a list of rows plus a counter producing fresh ids
(the database generates the opaque `id`; `created_at`/`updated_at` are
system-managed timestamps that no service logic reads, so they are omitted).
An optional `userId` string models the nullable `user_id` column, with
`none` standing both for SQL NULL and for an omitted (`undefined`)
TypeScript argument.  Fallible operations return `Except String Store`:
`Except.error` models the thrown `Error` (the throw happens before any
database write, so no state accompanies an error).
-/

namespace DefaultViews

/-- The `DefaultViewScope` type: `"user" | "project"`. -/
inductive DefaultViewScope where
  | user
  | project
deriving DecidableEq, Repr

/-- A row of the `default_views` table. -/
structure DefaultView where
  id : Nat
  projectId : String
  userId : Option String
  viewName : String
  viewId : String
deriving DecidableEq, Repr

/-- The `default_views` table: its rows plus the id generator. -/
structure Store where
  rows : List DefaultView
  nextId : Nat
deriving DecidableEq, Repr

/-- The `ResolvedDefault` return shape of `getResolvedDefault`. -/
structure ResolvedDefault where
  viewId : String
  scope : DefaultViewScope
deriving DecidableEq, Repr

/-- The `IsDefaultResult` return shape of `isViewDefault`. -/
structure IsDefaultResult where
  isUserDefault : Bool
  isProjectDefault : Bool
  affectedCount : Nat
deriving DecidableEq, Repr

/-- JavaScript truthiness of a `string | undefined` value: `undefined` and
the empty string are falsy, every other string is truthy.  This is the test
`if (userId)` / `!userId` performs in the service. -/
def jsTruthy : Option String → Bool
  | none => false
  | some s => !(s == "")

/-- The Prisma `where` clause of `getResolvedDefault`'s `findMany`:
`{ projectId, viewName, OR: [{ userId: userId ?? null }, { userId: null }] }`. -/
def ctxPred (projectId viewName : String) (userId : Option String)
    (r : DefaultView) : Bool :=
  decide (r.projectId = projectId ∧ r.viewName = viewName ∧
    (r.userId = userId ∨ r.userId = none))

/-- The Prisma `where` clause `{ projectId, viewName, userId: userIdToUse }`
used by `setAsDefault`'s `findFirst` and `clearDefault`'s `deleteMany`. -/
def keyPred (projectId viewName : String) (userId : Option String)
    (r : DefaultView) : Bool :=
  decide (r.projectId = projectId ∧ r.viewName = viewName ∧ r.userId = userId)

/-- `DefaultViewService.getResolvedDefault`: fetch the caller's personal
pointer and the project pointer, prefer the personal one when a truthy
`userId` was given, fall back to the project pointer, else `null`. -/
def getResolvedDefault (s : Store) (projectId viewName : String)
    (userId : Option String) : Option ResolvedDefault :=
  let defaults := s.rows.filter (ctxPred projectId viewName userId)
  let userHit :=
    if jsTruthy userId then
      defaults.find? fun d => decide (d.userId = userId)
    else none
  match userHit with
  | some d => some { viewId := d.viewId, scope := DefaultViewScope.user }
  | none =>
    match defaults.find? fun d => decide (d.userId = none) with
    | some d => some { viewId := d.viewId, scope := DefaultViewScope.project }
    | none => none

/-- `const userIdToUse = scope === "user" ? userId : null;` -/
def effectiveUser (scope : DefaultViewScope) (userId : Option String) :
    Option String :=
  if scope = DefaultViewScope.user then userId else none

/-- Prisma `update({ where: { id }, data: { viewId } })`: overwrite the
`viewId` of the row whose `id` matches, leaving every other field and every
other row unchanged. -/
def updateViewId (i : Nat) (viewId : String) (r : DefaultView) : DefaultView :=
  if r.id = i then { r with viewId := viewId } else r

/-- `DefaultViewService.setAsDefault`: validate, then manually upsert on the
composite key (`projectId`, effective user, `viewName`) — update the found
row's `viewId` in place by id, or create a fresh row. -/
def setAsDefault (s : Store) (projectId viewId viewName : String)
    (scope : DefaultViewScope) (userId : Option String) : Except String Store :=
  let userIdToUse := effectiveUser scope userId
  if scope = DefaultViewScope.user ∧ jsTruthy userId = false then
    Except.error "userId is required for user-level defaults"
  else
    match s.rows.find? (keyPred projectId viewName userIdToUse) with
    | some existing =>
      Except.ok { s with rows := s.rows.map (updateViewId existing.id viewId) }
    | none =>
      let created := DefaultView.mk s.nextId projectId userIdToUse viewName viewId
      Except.ok (Store.mk (s.rows ++ [created]) (s.nextId + 1))

/-- `DefaultViewService.clearDefault`: validate, then `deleteMany` on the
composite key (`projectId`, effective user, `viewName`). -/
def clearDefault (s : Store) (projectId viewName : String)
    (scope : DefaultViewScope) (userId : Option String) : Except String Store :=
  let userIdToUse := effectiveUser scope userId
  if scope = DefaultViewScope.user ∧ jsTruthy userId = false then
    Except.error "userId is required for clearing user-level defaults"
  else
    let kept := s.rows.filter (fun r => !keyPred projectId viewName userIdToUse r)
    Except.ok { s with rows := kept }

/-- `DefaultViewService.isViewDefault`: fetch all pointers to `viewId` and
report whether any is user-scoped, any is project-scoped, and how many. -/
def isViewDefault (s : Store) (viewId : String) : IsDefaultResult :=
  let defaults := s.rows.filter fun r => decide (r.viewId = viewId)
  { isUserDefault := defaults.any fun d => decide (d.userId ≠ none),
    isProjectDefault := defaults.any fun d => decide (d.userId = none),
    affectedCount := defaults.length }

/-- `DefaultViewService.cleanupOrphanedDefaults`: `deleteMany` of every
pointer whose `viewId` matches. -/
def cleanupOrphanedDefaults (s : Store) (viewId : String) : Store :=
  { s with rows := s.rows.filter (fun r => !decide (r.viewId = viewId)) }

/-- Two rows agree on the composite unique key of the
`default_views_project_id_user_id_view_name_key` index (NULLS NOT DISTINCT:
`Option.none` compares equal to itself here, exactly as the index treats
NULL as one concrete value). -/
def sameKey (a b : DefaultView) : Prop :=
  a.projectId = b.projectId ∧ a.userId = b.userId ∧ a.viewName = b.viewName

instance (a b : DefaultView) : Decidable (sameKey a b) :=
  inferInstanceAs (Decidable (_ ∧ _ ∧ _))

/-- The uniqueness invariant enforced by the unique index: no two distinct
rows share (`projectId`, `userId`, `viewName`), null `userId` included. -/
def KeyUnique (rows : List DefaultView) : Prop :=
  rows.Pairwise fun a b => ¬ sameKey a b

/-- One service call, as a transition on the table state.  The two read
operations leave the state untouched; `setAsDefault` and `clearDefault`
step only when they return `Except.ok` (a thrown validation error performs
no write); `cleanupOrphanedDefaults` is total. -/
inductive Step : Store → Store → Prop where
  | resolve (s : Store) (projectId viewName : String) (userId : Option String) :
      Step s s
  | set (s t : Store) (projectId viewId viewName : String)
      (scope : DefaultViewScope) (userId : Option String)
      (h : setAsDefault s projectId viewId viewName scope userId = Except.ok t) :
      Step s t
  | clear (s t : Store) (projectId viewName : String)
      (scope : DefaultViewScope) (userId : Option String)
      (h : clearDefault s projectId viewName scope userId = Except.ok t) :
      Step s t
  | isDef (s : Store) (viewId : String) : Step s s
  | cleanup (s : Store) (viewId : String) :
      Step s (cleanupOrphanedDefaults s viewId)

/-- Reachability by any finite sequence of the five operations. -/
def Reaches : Store → Store → Prop := Relation.ReflTransGen Step

/-- The empty table. -/
def emptyStore : Store := { rows := [], nextId := 0 }

/-- A table holding only a project-level default for ("p", "traces"). -/
def projStore : Store := Store.mk [DefaultView.mk 0 "p" none "traces" "A"] 1

/-- A table holding user U1's personal default "A" and the project default
"B" for ("p", "traces"). -/
def demoStore : Store :=
  Store.mk [DefaultView.mk 0 "p" (some "U1") "traces" "A",
    DefaultView.mk 1 "p" none "traces" "B"] 2

/-- `demoStore` plus an unrelated user U3 row: differs from `demoStore` only
in a pointer owned by a user other than U1. -/
def demoStoreU3 : Store :=
  Store.mk [DefaultView.mk 0 "p" (some "U1") "traces" "A",
    DefaultView.mk 1 "p" none "traces" "B",
    DefaultView.mk 2 "p" (some "U3") "traces" "C"] 3

/-- A table holding a row whose `userId` is the empty string (no service
operation creates such a row, but the column admits it). -/
def emptyUserStore : Store :=
  Store.mk [DefaultView.mk 0 "p" (some "") "traces" "A"] 1

/-- The rows `getResolvedDefault` can ever see for a caller with the given
`userId`: project-wide pointers and the caller's own pointer.  Rows of
other users are invisible to the query. -/
def visibleTo (u : Option String) (r : DefaultView) : Bool :=
  decide (r.userId = none ∨ r.userId = u)

theorem keyPred_eq_true_iff (p vn : String) (uu : Option String) (r : DefaultView) :
    keyPred p vn uu r = true ↔ (r.projectId = p ∧ r.viewName = vn ∧ r.userId = uu) := by
  simp [keyPred]

theorem ctxPred_eq_true_iff (p vn : String) (u : Option String) (r : DefaultView) :
    ctxPred p vn u r = true ↔
      (r.projectId = p ∧ r.viewName = vn ∧ (r.userId = u ∨ r.userId = none)) := by
  simp [ctxPred]

theorem sameKey_of_keyPred {p vn : String} {uu : Option String} {a b : DefaultView}
    (ha : keyPred p vn uu a = true) (hb : keyPred p vn uu b = true) : sameKey a b := by
  rw [keyPred_eq_true_iff] at ha hb
  exact ⟨ha.1.trans hb.1.symm, ha.2.2.trans hb.2.2.symm, ha.2.1.trans hb.2.1.symm⟩

theorem updateViewId_projectId (i : Nat) (v : String) (r : DefaultView) :
    (updateViewId i v r).projectId = r.projectId := by
  unfold updateViewId; split <;> rfl

theorem updateViewId_userId (i : Nat) (v : String) (r : DefaultView) :
    (updateViewId i v r).userId = r.userId := by
  unfold updateViewId; split <;> rfl

theorem updateViewId_viewName (i : Nat) (v : String) (r : DefaultView) :
    (updateViewId i v r).viewName = r.viewName := by
  unfold updateViewId; split <;> rfl

theorem updateViewId_id (i : Nat) (v : String) (r : DefaultView) :
    (updateViewId i v r).id = r.id := by
  unfold updateViewId; split <;> rfl

theorem keyPred_updateViewId (p vn : String) (uu : Option String)
    (i : Nat) (v : String) (r : DefaultView) :
    keyPred p vn uu (updateViewId i v r) = keyPred p vn uu r := by
  simp [keyPred, updateViewId_projectId, updateViewId_userId, updateViewId_viewName]

theorem sameKey_updateViewId_iff (i : Nat) (v : String) (a b : DefaultView) :
    sameKey (updateViewId i v a) (updateViewId i v b) ↔ sameKey a b := by
  simp [sameKey, updateViewId_projectId, updateViewId_userId, updateViewId_viewName]

theorem keyUnique_map_updateViewId {l : List DefaultView} (i : Nat) (v : String)
    (h : KeyUnique l) : KeyUnique (l.map (updateViewId i v)) :=
  h.map _ fun _ _ hab hsk => hab ((sameKey_updateViewId_iff i v _ _).mp hsk)

theorem keyUnique_filter {l : List DefaultView} (q : DefaultView → Bool)
    (h : KeyUnique l) : KeyUnique (l.filter q) :=
  h.sublist (List.filter_sublist l)

/-- `setAsDefault` preserves the composite-key uniqueness invariant: the
update branch rewrites only `viewId`s, and the create branch fires only when
`findFirst` saw no row with the new row's key. -/
theorem setAsDefault_keyUnique {s t : Store} {p vi vn : String}
    {sc : DefaultViewScope} {u : Option String} (hku : KeyUnique s.rows)
    (hok : setAsDefault s p vi vn sc u = Except.ok t) : KeyUnique t.rows := by
  unfold setAsDefault at hok
  split at hok
  · exact absurd hok (by simp)
  · dsimp only at hok
    split at hok
    next e hfind =>
      cases hok
      exact keyUnique_map_updateViewId e.id vi hku
    next hfind =>
      cases hok
      refine List.pairwise_append.mpr ⟨hku, List.pairwise_singleton _ _, ?_⟩
      intro a ha b hb hsk
      rcases List.mem_singleton.mp hb with rfl
      have hnp := List.find?_eq_none.mp hfind a ha
      exact hnp ((keyPred_eq_true_iff _ _ _ _).mpr ⟨hsk.1, hsk.2.2, hsk.2.1⟩)

theorem clearDefault_keyUnique {s t : Store} {p vn : String}
    {sc : DefaultViewScope} {u : Option String} (hku : KeyUnique s.rows)
    (hok : clearDefault s p vn sc u = Except.ok t) : KeyUnique t.rows := by
  unfold clearDefault at hok
  split at hok
  · exact absurd hok (by simp)
  · cases hok
    exact keyUnique_filter _ hku

theorem cleanupOrphanedDefaults_keyUnique {s : Store} {v : String}
    (hku : KeyUnique s.rows) : KeyUnique (cleanupOrphanedDefaults s v).rows :=
  keyUnique_filter _ hku

theorem setAsDefault_eq_update {s : Store} {p vi vn : String}
    {sc : DefaultViewScope} {u : Option String} {e : DefaultView}
    (hval : ¬(sc = DefaultViewScope.user ∧ jsTruthy u = false))
    (hfind : s.rows.find? (keyPred p vn (effectiveUser sc u)) = some e) :
    setAsDefault s p vi vn sc u =
      Except.ok { s with rows := s.rows.map (updateViewId e.id vi) } := by
  unfold setAsDefault
  dsimp only
  rw [if_neg hval, hfind]

theorem setAsDefault_eq_create {s : Store} {p vi vn : String}
    {sc : DefaultViewScope} {u : Option String}
    (hval : ¬(sc = DefaultViewScope.user ∧ jsTruthy u = false))
    (hfind : s.rows.find? (keyPred p vn (effectiveUser sc u)) = none) :
    setAsDefault s p vi vn sc u =
      Except.ok (Store.mk
        (s.rows ++ [DefaultView.mk s.nextId p (effectiveUser sc u) vn vi])
        (s.nextId + 1)) := by
  unfold setAsDefault
  dsimp only
  rw [if_neg hval, hfind]

/-- Under the uniqueness invariant, the row `findFirst` sees is the only
row with its composite key. -/
theorem filter_eq_singleton_of_find? {l : List DefaultView} {p vn : String}
    {uu : Option String} {e : DefaultView} (hku : KeyUnique l)
    (hfind : l.find? (keyPred p vn uu) = some e) :
    l.filter (keyPred p vn uu) = [e] := by
  induction l with
  | nil => cases hfind
  | cons a l ih =>
    rw [List.find?_cons] at hfind
    obtain ⟨hhead, htail⟩ := List.pairwise_cons.mp hku
    cases hp : keyPred p vn uu a with
    | true =>
      rw [hp] at hfind
      cases hfind
      rw [List.filter_cons_of_pos hp]
      have hnil : l.filter (keyPred p vn uu) = [] := by
        refine List.filter_eq_nil_iff.mpr fun b hb hkb => ?_
        exact hhead b hb (sameKey_of_keyPred hp hkb)
      rw [hnil]
    | false =>
      rw [hp] at hfind
      rw [List.filter_cons_of_neg (by simp [hp])]
      exact ih htail hfind

/-- When exactly one row passes a filter, `find?` returns it. -/
theorem find?_eq_some_of_filter_eq_singleton {α : Type} {l : List α}
    {q : α → Bool} {e : α} (h : l.filter q = [e]) : l.find? q = some e := by
  induction l with
  | nil => cases h
  | cons a l ih =>
    rw [List.find?_cons]
    cases hp : q a with
    | true =>
      rw [List.filter_cons_of_pos hp] at h
      injection h with h1 h2
      rw [h1]
    | false =>
      rw [List.filter_cons_of_neg (by simp [hp])] at h
      exact ih h

/-- Rewriting `viewId`s commutes with selecting by composite key. -/
theorem filter_keyPred_map_update (l : List DefaultView) (p vn : String)
    (uu : Option String) (i : Nat) (v : String) :
    (l.map (updateViewId i v)).filter (keyPred p vn uu) =
      (l.filter (keyPred p vn uu)).map (updateViewId i v) := by
  rw [List.filter_map]
  congr 1
  exact List.filter_congr fun x _ => by
    simp [Function.comp, keyPred_updateViewId]

/-- One `setAsDefault` call on a state whose key already has exactly one
row: the call succeeds, overwrites that row's `viewId` in place (same id)
and adds no row. -/
theorem setAsDefault_step_of_filter_singleton {t1 : Store} {p vi vn : String}
    {sc : DefaultViewScope} {u : Option String} {r1 : DefaultView}
    (hval : ¬(sc = DefaultViewScope.user ∧ jsTruthy u = false))
    (hfilter : t1.rows.filter (keyPred p vn (effectiveUser sc u)) = [r1]) :
    ∃ t2, setAsDefault t1 p vi vn sc u = Except.ok t2 ∧
      t2.rows.filter (keyPred p vn (effectiveUser sc u)) =
        [{ r1 with viewId := vi }] ∧
      t2.rows.length = t1.rows.length := by
  have hfind := find?_eq_some_of_filter_eq_singleton hfilter
  refine ⟨_, setAsDefault_eq_update hval hfind, ?_, ?_⟩
  · show (t1.rows.map (updateViewId r1.id vi)).filter
        (keyPred p vn (effectiveUser sc u)) = _
    rw [filter_keyPred_map_update, hfilter]
    simp [updateViewId]
  · exact List.length_map t1.rows _

/-- The first `setAsDefault` call from any invariant-satisfying state
leaves exactly one row with the target key, holding the given `viewId`. -/
theorem setAsDefault_first_filter {s : Store} {p vi vn : String}
    {sc : DefaultViewScope} {u : Option String} (hku : KeyUnique s.rows)
    (hval : ¬(sc = DefaultViewScope.user ∧ jsTruthy u = false)) :
    ∃ t1 r1, setAsDefault s p vi vn sc u = Except.ok t1 ∧
      t1.rows.filter (keyPred p vn (effectiveUser sc u)) = [r1] ∧
      r1.viewId = vi := by
  cases hfind : s.rows.find? (keyPred p vn (effectiveUser sc u)) with
  | some e =>
    refine ⟨_, { e with viewId := vi }, setAsDefault_eq_update hval hfind, ?_, rfl⟩
    show (s.rows.map (updateViewId e.id vi)).filter
        (keyPred p vn (effectiveUser sc u)) = _
    rw [filter_keyPred_map_update, filter_eq_singleton_of_find? hku hfind]
    simp [updateViewId]
  | none =>
    refine ⟨_, DefaultView.mk s.nextId p (effectiveUser sc u) vn vi,
      setAsDefault_eq_create hval hfind, ?_, rfl⟩
    show (s.rows ++ [DefaultView.mk s.nextId p (effectiveUser sc u) vn vi]).filter
        (keyPred p vn (effectiveUser sc u)) = _
    rw [List.filter_append]
    have hnil : s.rows.filter (keyPred p vn (effectiveUser sc u)) = [] := by
      refine List.filter_eq_nil_iff.mpr fun b hb hkb => ?_
      exact absurd hfind (by rw [List.find?_eq_none]; intro hall; exact hall b hb hkb)
    rw [hnil]
    simp [keyPred]

/-- C2: `setAsDefault` is idempotent and converges to a single row per
composite key: from any state of the table (all of which satisfy the unique
index) and for any valid input, two calls with the same
(projectId, viewName, scope, userId) and the same `viewId` leave exactly
one row for that key holding that `viewId`, and a further call with a
different `viewId` overwrites that same row in place — same `id`, new
`viewId`, no second row created. -/
theorem setAsDefault_idempotent_upsert (s : Store) (p vi vi2 vn : String)
    (sc : DefaultViewScope) (u : Option String) (hku : KeyUnique s.rows)
    (hvalid : sc = DefaultViewScope.user → jsTruthy u = true) :
    ∃ t1 t2 t3 r,
      setAsDefault s p vi vn sc u = Except.ok t1 ∧
      setAsDefault t1 p vi vn sc u = Except.ok t2 ∧
      t2.rows.filter (keyPred p vn (effectiveUser sc u)) = [r] ∧
      r.viewId = vi ∧ t2.rows.length = t1.rows.length ∧
      setAsDefault t2 p vi2 vn sc u = Except.ok t3 ∧
      t3.rows.filter (keyPred p vn (effectiveUser sc u)) =
        [{ r with viewId := vi2 }] ∧
      t3.rows.length = t2.rows.length := by
  have hval : ¬(sc = DefaultViewScope.user ∧ jsTruthy u = false) := by
    rintro ⟨h1, h2⟩
    rw [hvalid h1] at h2
    cases h2
  obtain ⟨t1, r1, hok1, hfilter1, hvi1⟩ := setAsDefault_first_filter hku hval
  obtain ⟨t2, hok2, hfilter2, hlen2⟩ :=
    @setAsDefault_step_of_filter_singleton t1 p vi vn sc u r1 hval hfilter1
  obtain ⟨t3, hok3, hfilter3, hlen3⟩ :=
    @setAsDefault_step_of_filter_singleton t2 p vi2 vn sc u _ hval hfilter2
  exact ⟨t1, t2, t3, { r1 with viewId := vi }, hok1, hok2, hfilter2, rfl,
    hlen2, hok3, hfilter3, hlen3⟩

/-- Witness for C2 at a concrete input: setting "A" twice then "B" for the
project default of ("p", "traces") from the empty table. -/
theorem setAsDefault_idempotent_upsert_witness :
    ∃ t1 t2 t3 r,
      setAsDefault emptyStore "p" "A" "traces" DefaultViewScope.project none =
        Except.ok t1 ∧
      setAsDefault t1 "p" "A" "traces" DefaultViewScope.project none =
        Except.ok t2 ∧
      t2.rows.filter (keyPred "p" "traces"
        (effectiveUser DefaultViewScope.project none)) = [r] ∧
      r.viewId = "A" ∧ t2.rows.length = t1.rows.length ∧
      setAsDefault t2 "p" "B" "traces" DefaultViewScope.project none =
        Except.ok t3 ∧
      t3.rows.filter (keyPred "p" "traces"
        (effectiveUser DefaultViewScope.project none)) =
        [{ r with viewId := "B" }] ∧
      t3.rows.length = t2.rows.length :=
  setAsDefault_idempotent_upsert emptyStore "p" "A" "B" "traces"
    DefaultViewScope.project none List.Pairwise.nil
    fun h => DefaultViewScope.noConfusion h

/-- C3: the uniqueness invariant — at most one row per
(`projectId`, `userId`, `viewName`), with null `userId` counting as one
concrete singleton value — holds in every state reachable from an
invariant-satisfying state (the empty table included) by any sequence of
the five service operations. -/
theorem reachable_keyUnique (s t : Store) (h : KeyUnique s.rows)
    (hr : Reaches s t) : KeyUnique t.rows := by
  unfold Reaches at hr
  induction hr with
  | refl => exact h
  | tail _ hstep ih =>
    cases hstep with
    | resolve => exact ih
    | set _ _ _ _ _ _ hok => exact setAsDefault_keyUnique ih hok
    | clear _ _ _ _ _ hok => exact clearDefault_keyUnique ih hok
    | isDef => exact ih
    | cleanup => exact cleanupOrphanedDefaults_keyUnique ih

/-- Witness for C3 at a concrete input: one `setAsDefault` step from the
empty table reaches `projStore`, which satisfies the invariant. -/
theorem reachable_keyUnique_witness : KeyUnique projStore.rows :=
  reachable_keyUnique emptyStore projStore List.Pairwise.nil
    (Relation.ReflTransGen.single
      (Step.set emptyStore projStore "p" "A" "traces" DefaultViewScope.project
        none rfl))

/-- C4: with `scope = "user"` and no `userId` supplied, `setAsDefault` and
`clearDefault` both fail with the validation error; the thrown error
precedes any write, so the returned `Except.error` carries no successor
state and the table is untouched (in particular no row is created). -/
theorem userScope_requires_userId (s : Store) (p vi vn : String) :
    setAsDefault s p vi vn DefaultViewScope.user none =
      Except.error "userId is required for user-level defaults" ∧
    clearDefault s p vn DefaultViewScope.user none =
      Except.error "userId is required for clearing user-level defaults" :=
  ⟨rfl, rfl⟩

/-- C5: with `scope = "project"` both mutating operations target the
composite key with null effective user — a supplied `userId` is ignored
entirely — and with `scope = "user"` the effective user is exactly the
supplied `userId`. -/
theorem effectiveUser_scope_targeting (s : Store) (p vi vn : String)
    (u : Option String) :
    effectiveUser DefaultViewScope.project u = none ∧
    effectiveUser DefaultViewScope.user u = u ∧
    setAsDefault s p vi vn DefaultViewScope.project u =
      setAsDefault s p vi vn DefaultViewScope.project none ∧
    clearDefault s p vn DefaultViewScope.project u =
      clearDefault s p vn DefaultViewScope.project none :=
  ⟨rfl, rfl, rfl, rfl⟩

theorem getResolvedDefault_unfold (s : Store) (p vn : String) (u : Option String) :
    getResolvedDefault s p vn u =
      match (if jsTruthy u then
          (s.rows.filter (ctxPred p vn u)).find? (fun d => decide (d.userId = u))
        else none) with
      | some d => some ⟨d.viewId, DefaultViewScope.user⟩
      | none =>
        match (s.rows.filter (ctxPred p vn u)).find?
            (fun d => decide (d.userId = none)) with
        | some d => some ⟨d.viewId, DefaultViewScope.project⟩
        | none => none := rfl

/-- When either branch's `find` fires, the result comes from a row of the
table with the right project, view name and exactly the sought user. -/
theorem ctxHit_sound {s : Store} {p vn : String} {u w : Option String}
    {d : DefaultView}
    (hfind : (s.rows.filter (ctxPred p vn u)).find?
      (fun r => decide (r.userId = w)) = some d) :
    d ∈ s.rows ∧ d.projectId = p ∧ d.viewName = vn ∧ d.userId = w := by
  have hmem := List.mem_of_find?_eq_some hfind
  have hw : d.userId = w := by
    have := List.find?_some hfind
    simpa using this
  rw [List.mem_filter] at hmem
  have hctx := (ctxPred_eq_true_iff p vn u d).mp hmem.2
  exact ⟨hmem.1, hctx.1, hctx.2.1, hw⟩

/-- When a row with the sought user (either the caller's id or null)
exists, the corresponding `find` fires. -/
theorem ctxHit_exists {s : Store} {p vn : String} {u w : Option String}
    (hw : w = u ∨ w = none)
    (hex : ∃ r ∈ s.rows, r.projectId = p ∧ r.viewName = vn ∧ r.userId = w) :
    ∃ d, (s.rows.filter (ctxPred p vn u)).find?
      (fun r => decide (r.userId = w)) = some d := by
  have hsome : ∃ x ∈ s.rows.filter (ctxPred p vn u), decide (x.userId = w) = true := by
    obtain ⟨r, hmem, hp, hvn, hu⟩ := hex
    refine ⟨r, List.mem_filter.mpr ⟨hmem, ?_⟩, by simp [hu]⟩
    refine (ctxPred_eq_true_iff p vn u r).mpr ⟨hp, hvn, ?_⟩
    rcases hw with rfl | rfl
    · exact Or.inl hu
    · exact Or.inr hu
  exact Option.isSome_iff_exists.mp (List.find?_isSome.mpr hsome)

/-- The user branch yields nothing unless the supplied `userId` is truthy
and a row with exactly that `userId` exists. -/
theorem userHit_eq_none {s : Store} {p vn : String} {u : Option String}
    (h : ¬(jsTruthy u = true ∧
      ∃ r ∈ s.rows, r.projectId = p ∧ r.viewName = vn ∧ r.userId = u)) :
    (if jsTruthy u then
      (s.rows.filter (ctxPred p vn u)).find? (fun d => decide (d.userId = u))
    else none) = none := by
  cases htr : jsTruthy u with
  | false => rw [if_neg (by simp)]
  | true =>
    rw [if_pos rfl, List.find?_eq_none]
    intro x hx
    simp only [decide_eq_true_eq]
    intro hxu
    rw [List.mem_filter] at hx
    have hctx := (ctxPred_eq_true_iff p vn u x).mp hx.2
    exact h ⟨htr, x, hx.1, hctx.1, hctx.2.1, hxu⟩

/-- The project branch yields nothing when no null-user row matches. -/
theorem projectHit_eq_none {s : Store} {p vn : String} {u : Option String}
    (h : ¬∃ r ∈ s.rows, r.projectId = p ∧ r.viewName = vn ∧ r.userId = none) :
    (s.rows.filter (ctxPred p vn u)).find?
      (fun r => decide (r.userId = none)) = none := by
  rw [List.find?_eq_none]
  intro x hx
  simp only [decide_eq_true_eq]
  intro hxu
  rw [List.mem_filter] at hx
  have hctx := (ctxPred_eq_true_iff p vn u x).mp hx.2
  exact h ⟨x, hx.1, hctx.1, hctx.2.1, hxu⟩

/-- The context fetch only reads rows visible to the caller: restricting
the table to those rows first does not change what the fetch returns. -/
theorem filter_ctx_eq_filter_visible (l : List DefaultView) (p vn : String)
    (u : Option String) :
    l.filter (ctxPred p vn u) = (l.filter (visibleTo u)).filter (ctxPred p vn u) := by
  rw [List.filter_filter]
  refine List.filter_congr ?_
  intro x _
  cases hc : ctxPred p vn u x with
  | false => simp
  | true =>
    have hctx := (ctxPred_eq_true_iff p vn u x).mp hc
    have hvis : visibleTo u x = true := by
      simp only [visibleTo, decide_eq_true_eq]
      rcases hctx.2.2 with h | h
      · exact Or.inr h
      · exact Or.inl h
    simp [hvis]

/-- A "user"-scoped result originates from a row with exactly the caller's
(truthy) `userId`. -/
theorem resolved_user_scope {s : Store} {p vn : String} {u : Option String}
    {res : ResolvedDefault} (hres : getResolvedDefault s p vn u = some res)
    (hscope : res.scope = DefaultViewScope.user) :
    jsTruthy u = true ∧ ∃ r ∈ s.rows, r.projectId = p ∧ r.viewName = vn ∧
      r.userId = u ∧ r.viewId = res.viewId := by
  rw [getResolvedDefault_unfold] at hres
  cases htr : jsTruthy u with
  | false =>
    rw [if_neg (by simp [htr])] at hres
    cases hfind : (s.rows.filter (ctxPred p vn u)).find?
        (fun r => decide (r.userId = none)) with
    | none => rw [hfind] at hres; cases hres
    | some d => rw [hfind] at hres; cases hres; cases hscope
  | true =>
    rw [if_pos htr] at hres
    cases hfind : (s.rows.filter (ctxPred p vn u)).find?
        (fun d => decide (d.userId = u)) with
    | none =>
      rw [hfind] at hres
      cases hfind2 : (s.rows.filter (ctxPred p vn u)).find?
          (fun r => decide (r.userId = none)) with
      | none => rw [hfind2] at hres; cases hres
      | some d => rw [hfind2] at hres; cases hres; cases hscope
    | some d =>
      rw [hfind] at hres
      cases hres
      obtain ⟨hmem, hp, hvn, hu⟩ := ctxHit_sound hfind
      exact ⟨rfl, d, hmem, hp, hvn, hu, rfl⟩

/-- C9 (user isolation / noninterference): two table states that agree on
the rows visible to the caller — the project rows and the caller's own —
resolve identically, however the other users' personal pointers differ;
a "user"-scoped result always originates from a row with exactly the
caller's `userId`; and with no `userId` supplied only a project-scoped
result (or absent) is possible. -/
theorem user_isolation (s1 s2 : Store) (p vn : String) (u : Option String)
    (h : s1.rows.filter (visibleTo u) = s2.rows.filter (visibleTo u)) :
    getResolvedDefault s1 p vn u = getResolvedDefault s2 p vn u ∧
    (∀ res : ResolvedDefault, getResolvedDefault s1 p vn u = some res →
      res.scope = DefaultViewScope.user →
      jsTruthy u = true ∧ ∃ r ∈ s1.rows, r.projectId = p ∧ r.viewName = vn ∧
        r.userId = u ∧ r.viewId = res.viewId) ∧
    (∀ res : ResolvedDefault, getResolvedDefault s1 p vn none = some res →
      res.scope = DefaultViewScope.project) := by
  refine ⟨?_, ?_, ?_⟩
  · have hf : s1.rows.filter (ctxPred p vn u) = s2.rows.filter (ctxPred p vn u) := by
      rw [filter_ctx_eq_filter_visible, h, ← filter_ctx_eq_filter_visible]
    rw [getResolvedDefault_unfold, getResolvedDefault_unfold, hf]
  · intro res hres hscope
    exact resolved_user_scope hres hscope
  · intro res hres
    cases hsc : res.scope with
    | project => rfl
    | user =>
      obtain ⟨htr, -⟩ := resolved_user_scope hres hsc
      cases htr

/-- Witness for C9 at concrete inputs: adding user U3's personal pointer
does not change what user U1 resolves. -/
theorem user_isolation_witness :
    getResolvedDefault demoStoreU3 "p" "traces" (some "U1") =
      getResolvedDefault demoStore "p" "traces" (some "U1") ∧
    (∀ res : ResolvedDefault,
      getResolvedDefault demoStoreU3 "p" "traces" (some "U1") = some res →
      res.scope = DefaultViewScope.user →
      jsTruthy (some "U1") = true ∧ ∃ r ∈ demoStoreU3.rows, r.projectId = "p" ∧
        r.viewName = "traces" ∧ r.userId = some "U1" ∧ r.viewId = res.viewId) ∧
    (∀ res : ResolvedDefault,
      getResolvedDefault demoStoreU3 "p" "traces" none = some res →
      res.scope = DefaultViewScope.project) :=
  user_isolation demoStoreU3 demoStore "p" "traces" (some "U1") rfl

/-- C1 counterexample: in `emptyUserStore` a `userId` is supplied (the
empty string) and a row with that exact non-null `userId` exists for
("p", "traces"), yet `getResolvedDefault` returns absent instead of that
row with scope "user". -/
theorem resolution_priority_cex :
    (∃ r ∈ emptyUserStore.rows,
      r.projectId = "p" ∧ r.viewName = "traces" ∧ r.userId = some "") ∧
    getResolvedDefault emptyUserStore "p" "traces" (some "") = none :=
  ⟨⟨DefaultView.mk 0 "p" (some "") "traces" "A",
    List.mem_cons_self _ _, rfl, rfl, rfl⟩, rfl⟩

/-- C1 (amended): for every state and every (projectId, viewName, optional
userId), `getResolvedDefault` returns a pointer with that exact non-null
`userId` with scope "user" when a truthy (non-empty) `userId` was supplied
and such a row exists; otherwise it returns a pointer with null `userId`
with scope "project" when one exists; otherwise it returns absent.  The
return type yields exactly one result or none, never both scopes. -/
theorem resolution_priority (s : Store) (p vn : String) (u : Option String) :
    ((jsTruthy u = true ∧
        ∃ r ∈ s.rows, r.projectId = p ∧ r.viewName = vn ∧ r.userId = u) →
      ∃ r ∈ s.rows, r.projectId = p ∧ r.viewName = vn ∧ r.userId = u ∧
        getResolvedDefault s p vn u = some ⟨r.viewId, DefaultViewScope.user⟩) ∧
    (¬(jsTruthy u = true ∧
        ∃ r ∈ s.rows, r.projectId = p ∧ r.viewName = vn ∧ r.userId = u) →
      (∃ r ∈ s.rows, r.projectId = p ∧ r.viewName = vn ∧ r.userId = none) →
      ∃ r ∈ s.rows, r.projectId = p ∧ r.viewName = vn ∧ r.userId = none ∧
        getResolvedDefault s p vn u = some ⟨r.viewId, DefaultViewScope.project⟩) ∧
    (¬(jsTruthy u = true ∧
        ∃ r ∈ s.rows, r.projectId = p ∧ r.viewName = vn ∧ r.userId = u) →
      ¬(∃ r ∈ s.rows, r.projectId = p ∧ r.viewName = vn ∧ r.userId = none) →
      getResolvedDefault s p vn u = none) := by
  refine ⟨?_, ?_, ?_⟩
  · rintro ⟨htr, hex⟩
    obtain ⟨d, hfind⟩ := ctxHit_exists (Or.inl rfl) hex
    obtain ⟨hmem, hp, hvn, hu⟩ := ctxHit_sound hfind
    refine ⟨d, hmem, hp, hvn, hu, ?_⟩
    rw [getResolvedDefault_unfold, if_pos htr, hfind]
  · intro hneg hexnull
    obtain ⟨d, hfind⟩ := @ctxHit_exists s p vn u none (Or.inr rfl) hexnull
    obtain ⟨hmem, hp, hvn, hu⟩ := ctxHit_sound hfind
    refine ⟨d, hmem, hp, hvn, hu, ?_⟩
    rw [getResolvedDefault_unfold, userHit_eq_none hneg, hfind]
  · intro hneg hnonull
    rw [getResolvedDefault_unfold, userHit_eq_none hneg, projectHit_eq_none hnonull]

/-- Witness for C1's amended theorem at a concrete input: in `demoStore`
user U1's personal pointer "A" wins with scope "user". -/
theorem resolution_priority_witness :
    ∃ r ∈ demoStore.rows, r.projectId = "p" ∧ r.viewName = "traces" ∧
      r.userId = some "U1" ∧
      getResolvedDefault demoStore "p" "traces" (some "U1") =
        some ⟨r.viewId, DefaultViewScope.user⟩ :=
  (resolution_priority demoStore "p" "traces" (some "U1")).1
    ⟨rfl, DefaultView.mk 0 "p" (some "U1") "traces" "A",
      List.mem_cons_self _ _, rfl, rfl, rfl⟩

/-- C10: an empty-string `userId` is treated as an absent user, because the
code tests it with JavaScript truthiness (`if (userId)`, `!userId`) rather
than presence: `getResolvedDefault` with `userId = ""` never returns scope
"user" — it falls through to the project pointer (a null-user row) or
absent even if a row with `userId = ""` exists — and the user-scoped
mutations with `userId = ""` fail with the validation error. -/
theorem empty_userId_treated_absent (s : Store) (p vn vi : String) :
    (∀ res : ResolvedDefault, getResolvedDefault s p vn (some "") = some res →
      res.scope = DefaultViewScope.project ∧
      ∃ r ∈ s.rows, r.projectId = p ∧ r.viewName = vn ∧ r.userId = none ∧
        r.viewId = res.viewId) ∧
    setAsDefault s p vi vn DefaultViewScope.user (some "") =
      Except.error "userId is required for user-level defaults" ∧
    clearDefault s p vn DefaultViewScope.user (some "") =
      Except.error "userId is required for clearing user-level defaults" := by
  refine ⟨?_, rfl, rfl⟩
  intro res hres
  rw [getResolvedDefault_unfold] at hres
  have htr : jsTruthy (some "") = false := rfl
  rw [htr] at hres
  simp only [Bool.false_eq_true, if_false] at hres
  cases hfind : (s.rows.filter (ctxPred p vn (some ""))).find?
      (fun d => decide (d.userId = none)) with
  | none => rw [hfind] at hres; cases hres
  | some d =>
    rw [hfind] at hres
    obtain ⟨hmem, hp, hvn, hnull⟩ := ctxHit_sound hfind
    cases hres
    exact ⟨rfl, d, hmem, hp, hvn, hnull, rfl⟩

/-- C6: `cleanupOrphanedDefaults(V)` deletes exactly the pointers whose
`viewId` equals V across all projects, users and scopes, leaving all other
rows unchanged; it is total (always succeeds, zero matches included), and
immediately afterwards `isViewDefault(V)` reports no user default, no
project default and an affected count of zero. -/
theorem cleanupOrphanedDefaults_spec (s : Store) (v : String) :
    (∀ r : DefaultView, r ∈ (cleanupOrphanedDefaults s v).rows ↔
      r ∈ s.rows ∧ r.viewId ≠ v) ∧
    isViewDefault (cleanupOrphanedDefaults s v) v =
      IsDefaultResult.mk false false 0 := by
  constructor
  · intro r
    simp [cleanupOrphanedDefaults, List.mem_filter]
  · unfold isViewDefault cleanupOrphanedDefaults
    dsimp only
    rw [List.filter_filter]
    have hnil : (s.rows.filter fun a =>
        decide (a.viewId = v) && !decide (a.viewId = v)) = [] := by
      refine List.filter_eq_nil_iff.mpr fun a _ => ?_
      simp
    rw [hnil]
    rfl

/-- C7: `isViewDefault(V)` reads the state without changing it (it is a
pure function of the table) and returns: `isUserDefault` true iff some row
with `viewId = V` has a non-null `userId`, `isProjectDefault` true iff some
row with `viewId = V` has a null `userId`, and `affectedCount` the total
number of rows with `viewId = V` (unbounded, in particular it may
exceed 2). -/
theorem isViewDefault_spec (s : Store) (v : String) :
    ((isViewDefault s v).isUserDefault = true ↔
      ∃ r ∈ s.rows, r.viewId = v ∧ r.userId ≠ none) ∧
    ((isViewDefault s v).isProjectDefault = true ↔
      ∃ r ∈ s.rows, r.viewId = v ∧ r.userId = none) ∧
    (isViewDefault s v).affectedCount =
      s.rows.countP fun r => decide (r.viewId = v) := by
  unfold isViewDefault
  refine ⟨?_, ?_, ?_⟩
  · dsimp only
    rw [List.any_eq_true]
    constructor
    · rintro ⟨x, hx, hpx⟩
      rw [List.mem_filter] at hx
      exact ⟨x, hx.1, by simpa using hx.2, by simpa using hpx⟩
    · rintro ⟨x, hx, h1, h2⟩
      exact ⟨x, List.mem_filter.mpr ⟨hx, by simpa using h1⟩, by simpa using h2⟩
  · dsimp only
    rw [List.any_eq_true]
    constructor
    · rintro ⟨x, hx, hpx⟩
      rw [List.mem_filter] at hx
      exact ⟨x, hx.1, by simpa using hx.2, by simpa using hpx⟩
    · rintro ⟨x, hx, h1, h2⟩
      exact ⟨x, List.mem_filter.mpr ⟨hx, by simpa using h1⟩, by simpa using h2⟩
  · dsimp only
    rw [List.countP_eq_length_filter]

/-- C8: for every valid input, `clearDefault` succeeds, deletes exactly the
pointers matching (`projectId`, effective user, `viewName`) while touching
no other row, and is a no-op (still succeeding) when zero rows match the
key. -/
theorem clearDefault_spec (s : Store) (p vn : String) (sc : DefaultViewScope)
    (u : Option String)
    (hvalid : sc = DefaultViewScope.user → jsTruthy u = true) :
    ∃ t, clearDefault s p vn sc u = Except.ok t ∧
      (∀ r : DefaultView, r ∈ t.rows ↔ r ∈ s.rows ∧
        ¬(r.projectId = p ∧ r.viewName = vn ∧ r.userId = effectiveUser sc u)) ∧
      ((∀ r ∈ s.rows, ¬(r.projectId = p ∧ r.viewName = vn ∧
          r.userId = effectiveUser sc u)) → t.rows = s.rows) := by
  have hval : ¬(sc = DefaultViewScope.user ∧ jsTruthy u = false) := by
    rintro ⟨h1, h2⟩
    rw [hvalid h1] at h2
    cases h2
  refine ⟨Store.mk
    (s.rows.filter fun r => !keyPred p vn (effectiveUser sc u) r) s.nextId,
    ?_, ?_, ?_⟩
  · unfold clearDefault
    dsimp only
    rw [if_neg hval]
  · intro r
    simp only [List.mem_filter, Bool.not_eq_eq_eq_not, Bool.not_true,
      keyPred, decide_eq_false_iff_not]
    try tauto
  · intro h
    show s.rows.filter _ = s.rows
    refine List.filter_eq_self.mpr fun a ha => ?_
    have hna := h a ha
    simp only [Bool.not_eq_eq_eq_not, Bool.not_true, keyPred,
      decide_eq_false_iff_not]
    tauto

/-- Witness for C8 at a concrete input: clearing the never-set project
default of ("q", "traces") in `demoStore` succeeds as a no-op. -/
theorem clearDefault_spec_witness :
    ∃ t, clearDefault demoStore "q" "traces" DefaultViewScope.project none =
        Except.ok t ∧
      (∀ r : DefaultView, r ∈ t.rows ↔ r ∈ demoStore.rows ∧
        ¬(r.projectId = "q" ∧ r.viewName = "traces" ∧
          r.userId = effectiveUser DefaultViewScope.project none)) ∧
      ((∀ r ∈ demoStore.rows, ¬(r.projectId = "q" ∧ r.viewName = "traces" ∧
          r.userId = effectiveUser DefaultViewScope.project none)) →
        t.rows = demoStore.rows) :=
  clearDefault_spec demoStore "q" "traces" DefaultViewScope.project none
    fun h => DefaultViewScope.noConfusion h

end DefaultViews
